import Mathlib

/-!
Verification of `extract_docs.py`: a line-oriented finite-state extractor
(`parse_ts_file`) recovering a Section/Subsection tree from a TypeScript
source literal, and a Markdown renderer (`generate_markdown`).

Strings are modelled as `List Char` (`Str`), so that the Python string
operations (strip, rstrip, split, startswith, endswith, substring search)
can be given direct executable definitions.  Places where the Python code
would raise an exception (attribute/key access on `None`, indexing a
split result that could be too short) are modelled as `Except.error`.
-/

/-- Python strings, modelled as lists of characters. -/
abbrev Str := List Char

/-- Coerce a Lean string literal to the `List Char` model. -/
def str (s : String) : Str := s.data

/-- The backtick character (the template-literal delimiter). -/
def backtick : Char := Char.ofNat 96

/-- The single-quote character. -/
def squote : Char := Char.ofNat 39

/-- The characters stripped by Python's default `str.strip()` (ASCII whitespace). -/
def isPySpace (c : Char) : Bool :=
  c = ' ' || c = '\t' || c = '\n' || c = '\r' || c = Char.ofNat 11 || c = Char.ofNat 12

/-- Drop characters satisfying `p` from the left end. -/
def lstripBy (p : Char → Bool) (s : Str) : Str := s.dropWhile p

/-- Drop characters satisfying `p` from the right end. -/
def rstripBy (p : Char → Bool) (s : Str) : Str := (s.reverse.dropWhile p).reverse

/-- Python `s.strip()`. -/
def pyStrip (s : Str) : Str := rstripBy isPySpace (lstripBy isPySpace s)

/-- Python `s.rstrip()`. -/
def pyRstrip (s : Str) : Str := rstripBy isPySpace s

/-- Python `s.rstrip(c)` for a single character `c`. -/
def rstripChar (c : Char) (s : Str) : Str := rstripBy (fun x => x == c) s

/-- Python `s.lstrip(c)` for a single character `c`. -/
def lstripChar (c : Char) (s : Str) : Str := lstripBy (fun x => x == c) s

/-- Python `s.strip(c)` for a single character `c`. -/
def stripChar (c : Char) (s : Str) : Str := rstripChar c (lstripChar c s)

/-- The remainder of `s` after the first occurrence of `pat`
(`s.split(pat, 1)[1]` in Python); `none` when `pat` does not occur. -/
def splitFirstAfter (pat : Str) (s : Str) : Option Str :=
  if pat.isPrefixOf s then some (s.drop pat.length)
  else
    match s with
    | [] => none
    | _ :: t => splitFirstAfter pat t

/-- Python substring membership `pat in s`. -/
def containsSub (pat : Str) (s : Str) : Bool := (splitFirstAfter pat s).isSome

/-- Python `s.rsplit(c, 1)[0]`: everything before the last occurrence of
the character `c`, or all of `s` when `c` does not occur. -/
def rsplitBeforeChar (c : Char) (s : Str) : Str :=
  if s.contains c then (((s.reverse.dropWhile (fun x => x != c)).drop 1).reverse) else s

/-- Python `'\n'.join(xs)`. -/
def joinNL (xs : List Str) : Str := List.intercalate (str "\n") xs

/-- The helper `clean_str` of `parse_ts_file`: strip whitespace, strip a
trailing comma, then remove one layer of matching quotes. -/
def clean_str (s : Str) : Str :=
  let s := rstripChar ',' (pyStrip s)
  if [squote].isPrefixOf s && [squote].isSuffixOf s then (s.drop 1).dropLast
  else if (str "\"").isPrefixOf s && (str "\"").isSuffixOf s then (s.drop 1).dropLast
  else s

/-- A subsection record.  The Python code builds it as a dict with optional
keys, so every field is an `Option`. -/
structure Subsection where
  id : Option Str := none
  title : Option Str := none
  content : Option Str := none
  code : Option Str := none
  notes : Option (List Str) := none
  decisions : Option (List Str) := none
deriving DecidableEq, Repr

/-- A section record.  Created as `{'subsections': []}`, so `subsections`
is always present; the scalar fields are optional dict keys. -/
structure Section where
  id : Option Str := none
  title : Option Str := none
  icon : Option Str := none
  subsections : List Subsection := []
deriving DecidableEq, Repr

/-- The states of the extractor's finite-state machine. -/
inductive PState where
  | STATE_ROOT
  | STATE_IN_SECTIONS_ARRAY
  | STATE_IN_SECTION
  | STATE_IN_SUBSECTIONS_ARRAY
  | STATE_IN_SUBSECTION
  | STATE_IN_CONTENT
  | STATE_IN_CODE
  | STATE_IN_NOTES
  | STATE_IN_DECISIONS
deriving DecidableEq, Repr

/-- The mutable state of the extractor's loop. -/
structure ParserSt where
  state : PState
  sections : List Section
  current_section : Option Section
  current_subsection : Option Subsection
  buffer : List Str
deriving DecidableEq, Repr

/-- The initial loop state of `parse_ts_file`. -/
def initSt : ParserSt :=
  { state := .STATE_ROOT, sections := [], current_section := none,
    current_subsection := none, buffer := [] }

/-- The closing test of the buffered-capture states: the body of
`if stripped.endswith(chr(96)+',') or stripped == chr(96) or ...`. -/
def closeCond (stripped : Str) : Bool :=
  (str "`,").isSuffixOf stripped || stripped = str "`" || stripped = str "`,"

/-- The value salvaged from a closing line:
`line.rstrip().rstrip(',').rstrip(chr(96))`. -/
def closeVal (line : Str) : Str :=
  rstripChar backtick (rstripChar ',' (pyRstrip line))

/-- The single-line test for a `content:`/`code:` field whose opening
backtick is on the marker line. -/
def singleLineCond (v : Str) : Bool :=
  (str "`,").isSuffixOf (pyStrip v) ||
    ((str "`").isSuffixOf (pyStrip v) && (pyStrip v).length > 1)

/-- One iteration of the `for i, line in enumerate(lines)` loop of
`parse_ts_file`.  `Except.error` marks the spots where the Python code
would raise (`None` dereference, missing dict key, out-of-range index on
a `split` result); the totality theorem shows they are unreachable. -/
def step (st : ParserSt) (line : Str) : Except String ParserSt :=
  let stripped := pyStrip line
  match st.state with
  | .STATE_ROOT =>
      if containsSub (str "export const specSections") line then
        .ok { st with state := .STATE_IN_SECTIONS_ARRAY }
      else .ok st
  | .STATE_IN_SECTIONS_ARRAY =>
      if stripped = str "\x7b" then
        .ok { st with current_section := some { subsections := [] },
                      state := .STATE_IN_SECTION }
      else if stripped = str "];" then
        .ok { st with state := .STATE_ROOT }
      else .ok st
  | .STATE_IN_SECTION =>
      if (str "id:").isPrefixOf stripped then
        match st.current_section, splitFirstAfter (str ":") stripped with
        | some sec, some rest =>
            .ok { st with current_section := some { sec with id := some (clean_str rest) } }
        | none, _ => .error "TypeError: item assignment on None section"
        | _, none => .error "IndexError: split produced a single piece"
      else if (str "title:").isPrefixOf stripped then
        match st.current_section, splitFirstAfter (str ":") stripped with
        | some sec, some rest =>
            .ok { st with current_section := some { sec with title := some (clean_str rest) } }
        | none, _ => .error "TypeError: item assignment on None section"
        | _, none => .error "IndexError: split produced a single piece"
      else if (str "icon:").isPrefixOf stripped then
        match st.current_section, splitFirstAfter (str ":") stripped with
        | some sec, some rest =>
            .ok { st with current_section := some { sec with icon := some (clean_str rest) } }
        | none, _ => .error "TypeError: item assignment on None section"
        | _, none => .error "IndexError: split produced a single piece"
      else if (str "subsections: [").isPrefixOf stripped then
        .ok { st with state := .STATE_IN_SUBSECTIONS_ARRAY }
      else if stripped = str "\x7d," || stripped = str "\x7d" then
        match st.current_section with
        | some sec =>
            .ok { st with sections := st.sections ++ [sec],
                          state := .STATE_IN_SECTIONS_ARRAY }
        | none =>
            -- Python appends `None` to the sections list here, which the
            -- renderer cannot consume; the invariant shows it never happens.
            .error "appended a None section"
      else .ok st
  | .STATE_IN_SUBSECTIONS_ARRAY =>
      if stripped = str "\x7b" then
        .ok { st with current_subsection := some ({} : Subsection),
                      state := .STATE_IN_SUBSECTION }
      else if stripped = str "]," || stripped = str "]" then
        .ok { st with state := .STATE_IN_SECTION }
      else .ok st
  | .STATE_IN_SUBSECTION =>
      if (str "id:").isPrefixOf stripped then
        match st.current_subsection, splitFirstAfter (str ":") stripped with
        | some sub, some rest =>
            .ok { st with current_subsection := some { sub with id := some (clean_str rest) } }
        | none, _ => .error "TypeError: item assignment on None subsection"
        | _, none => .error "IndexError: split produced a single piece"
      else if (str "title:").isPrefixOf stripped then
        match st.current_subsection, splitFirstAfter (str ":") stripped with
        | some sub, some rest =>
            .ok { st with current_subsection := some { sub with title := some (clean_str rest) } }
        | none, _ => .error "TypeError: item assignment on None subsection"
        | _, none => .error "IndexError: split produced a single piece"
      else if (str "content: `").isPrefixOf stripped then
        match st.current_subsection, splitFirstAfter (str "content: `") line with
        | some sub, some content_val =>
            if singleLineCond content_val then
              let sub2 := { sub with content := some (rsplitBeforeChar backtick content_val) }
              .ok { st with current_subsection := some sub2 }
            else
              .ok { st with buffer := [content_val], state := .STATE_IN_CONTENT }
        | none, _ => .error "TypeError: item assignment on None subsection"
        | _, none => .error "IndexError: split produced a single piece"
      else if (str "code: `").isPrefixOf stripped then
        match st.current_subsection, splitFirstAfter (str "code: `") line with
        | some sub, some code_val =>
            if singleLineCond code_val then
              let sub2 := { sub with code := some (rsplitBeforeChar backtick code_val) }
              .ok { st with current_subsection := some sub2 }
            else
              .ok { st with buffer := [code_val], state := .STATE_IN_CODE }
        | none, _ => .error "TypeError: item assignment on None subsection"
        | _, none => .error "IndexError: split produced a single piece"
      else if (str "notes: [").isPrefixOf stripped then
        match st.current_subsection with
        | some sub =>
            .ok { st with current_subsection := some { sub with notes := some [] },
                          state := .STATE_IN_NOTES }
        | none => .error "TypeError: item assignment on None subsection"
      else if (str "decisions: [").isPrefixOf stripped then
        match st.current_subsection with
        | some sub =>
            .ok { st with current_subsection := some { sub with decisions := some [] },
                          state := .STATE_IN_DECISIONS }
        | none => .error "TypeError: item assignment on None subsection"
      else if stripped = str "\x7d," || stripped = str "\x7d" then
        match st.current_section with
        | some sec =>
            match st.current_subsection with
            | some sub =>
                let sec2 := { sec with subsections := sec.subsections ++ [sub] }
                .ok { st with current_section := some sec2,
                              state := .STATE_IN_SUBSECTIONS_ARRAY }
            | none =>
                -- Python appends `None` into the subsections list here,
                -- which the renderer cannot consume; never reached.
                .error "appended a None subsection"
        | none =>
            -- `if current_section and ...` guard fails: no append.
            .ok { st with state := .STATE_IN_SUBSECTIONS_ARRAY }
      else .ok st
  | .STATE_IN_CONTENT =>
      if closeCond stripped then
        match st.current_subsection with
        | some sub =>
            let buf := if (closeVal line).isEmpty then st.buffer
                       else st.buffer ++ [closeVal line]
            let sub2 := { sub with content := some (joinNL buf) }
            .ok { st with buffer := buf, current_subsection := some sub2,
                          state := .STATE_IN_SUBSECTION }
        | none => .error "TypeError: item assignment on None subsection"
      else .ok { st with buffer := st.buffer ++ [line] }
  | .STATE_IN_CODE =>
      if closeCond stripped then
        match st.current_subsection with
        | some sub =>
            let buf := if (closeVal line).isEmpty then st.buffer
                       else st.buffer ++ [closeVal line]
            let sub2 := { sub with code := some (joinNL buf) }
            .ok { st with buffer := buf, current_subsection := some sub2,
                          state := .STATE_IN_SUBSECTION }
        | none => .error "TypeError: item assignment on None subsection"
      else .ok { st with buffer := st.buffer ++ [line] }
  | .STATE_IN_NOTES =>
      if [squote].isPrefixOf stripped || (str "\"").isPrefixOf stripped then
        match st.current_subsection with
        | some sub =>
            match sub.notes with
            | some ns =>
                let val := stripChar '"' (stripChar squote (rstripChar ',' (pyStrip stripped)))
                .ok { st with current_subsection := some { sub with notes := some (ns ++ [val]) } }
            | none => .error "KeyError: notes"
        | none => .error "TypeError: subscript on None subsection"
      else if (str "],").isPrefixOf stripped || stripped = str "]" then
        .ok { st with state := .STATE_IN_SUBSECTION }
      else .ok st
  | .STATE_IN_DECISIONS =>
      if [squote].isPrefixOf stripped || (str "\"").isPrefixOf stripped then
        match st.current_subsection with
        | some sub =>
            match sub.decisions with
            | some ds =>
                let val := stripChar '"' (stripChar squote (rstripChar ',' (pyStrip stripped)))
                .ok { st with current_subsection := some { sub with decisions := some (ds ++ [val]) } }
            | none => .error "KeyError: decisions"
        | none => .error "TypeError: subscript on None subsection"
      else if (str "],").isPrefixOf stripped || stripped = str "]" then
        .ok { st with state := .STATE_IN_SUBSECTION }
      else .ok st

/-- `parse_ts_file(content)`: split into lines, run the state machine,
return the collected sections. -/
def parse_ts_file (content : Str) : Except String (List Section) := do
  let lines := content.splitOn '\n'
  let final ← lines.foldlM step initSt
  return final.sections

/-- The fenced-code-block portion of `generate_markdown` (append the
fence line, the diagram special case with its `md[-1]` overwrite, the
stripped code, the closing fence). -/
def setLast (md : List Str) (v : Str) : List Str := md.dropLast ++ [v]

/-- The box-drawing test `chr(9484) in code or chr(9474) in code`. -/
def isDiagram (code : Str) : Bool :=
  code.contains (Char.ofNat 9484) || code.contains (Char.ofNat 9474)

/-- The code-block lines appended by `generate_markdown` for a truthy
`code` field, mirroring the append/overwrite sequence of the source. -/
def renderCodeBlock (code : Str) : List Str :=
  let md := [str "```typescript"]
  let md := if isDiagram code then md ++ [[]] else md
  -- the `elif`/`else` arms of the first conditional are `pass`
  let md := if isDiagram code then setLast md (str "```text") else md
  md ++ [pyStrip code, str "```\n"]

/-- The lines appended by `generate_markdown` for one subsection. -/
def renderSubsection (sub : Subsection) : List Str :=
  let md := [str "## " ++ sub.title.getD (str "Unknown"),
             str "<!-- id: " ++ sub.id.getD [] ++ str " -->\n"]
  let content := sub.content.getD []
  let md := if content.isEmpty then md else md ++ [pyStrip content ++ str "\n"]
  let code := sub.code.getD []
  let md := if code.isEmpty then md else md ++ renderCodeBlock code
  let decisions := sub.decisions.getD []
  let md := if decisions.isEmpty then md
            else md ++ [str "### Decisions"] ++ decisions.map (fun d => str "- " ++ d) ++ [[]]
  let notes := sub.notes.getD []
  let md := if notes.isEmpty then md
            else md ++ [str "### Notes"] ++ notes.map (fun n => str "- " ++ n) ++ [[]]
  md

/-- The lines appended by `generate_markdown` for one section. -/
def renderSection (sec : Section) : List Str :=
  [str "# " ++ sec.icon.getD [] ++ str " " ++ sec.title.getD (str "Unknown"),
   str "<!-- id: " ++ sec.id.getD [] ++ str " -->\n"]
  ++ sec.subsections.flatMap renderSubsection

/-- `generate_markdown(sections)`: the `md` list joined with newlines. -/
def generate_markdown (sections : List Section) : Str :=
  joinNL (sections.flatMap renderSection)

/-- The extract-then-render pipeline. -/
def pipeline (input : Str) : Except String Str :=
  (parse_ts_file input).map generate_markdown

/-! ### Concrete inputs used by the scenario claims -/

/-- A source file with one section (`intro`) holding one subsection
(`overview`) with a two-line `content` template literal and two notes. -/
def sampleInput : Str := str "export const specSections = [\n  \x7b\n    id: \"intro\",\n    title: \"Introduction\",\n    icon: \"📘\",\n    subsections: [\n      \x7b\n        id: \"overview\",\n        title: \"Overview\",\n        content: `Hello\nWorld`,\n        notes: [\n          \"note one\",\n          \"note two\",\n        ],\n      \x7d,\n    ],\n  \x7d,\n];"

/-- The Markdown the pipeline renders for `sampleInput`. -/
def sampleOutput : Str := str "# 📘 Introduction\n<!-- id: intro -->\n\n## Overview\n<!-- id: overview -->\n\nHello\nWorld\n\n### Notes\n- note one\n- note two\n"

/-- A subsection whose `code` holds box-drawing characters. -/
def diagramSub : Subsection := { code := some (str "┌──┐") }

/-- A subsection whose `code` holds no box-drawing characters. -/
def plainCodeSub : Subsection := { code := some (str "interface X") }

/-! ### C3, C2, C8 -/

/-- **C3**: on an input with exactly one section (`intro`, `Introduction`,
`📘`) holding one subsection (`overview`, `Overview`, content
`Hello\nWorld`, notes `note one`/`note two`), extract-then-render yields
the heading `# 📘 Introduction` with its id comment, `## Overview` with
its id comment, the prose lines `Hello` and `World`, then a `### Notes`
heading with the two bullet lines. -/
theorem claim3_concrete_scenario : pipeline sampleInput = .ok sampleOutput := by
  rfl

/-- **C2**: the claim that a `code` field containing a box-drawing
character is rendered as a fenced block tagged as plain text is violated:
because the source first appends an empty line and only then overwrites
`md[-1]`, the diagram case emits a line tagged `typescript` *and* a line
tagged `text`.  The second conjunct shows the box-free half of the claim
(the fence is tagged `typescript`) does hold. -/
theorem claim2_diagram_fence_evaluation :
    renderSubsection diagramSub =
      [str "## Unknown", str "<!-- id:  -->\n",
       str "```typescript", str "```text", str "┌──┐", str "```\n"] ∧
    renderSubsection plainCodeSub =
      [str "## Unknown", str "<!-- id:  -->\n",
       str "```typescript", str "interface X", str "```\n"] := by
  decide

/-- **C8**: the extract-then-render pipeline is a pure function of the
input text, so two runs on the same unchanged input give the same
output. -/
theorem claim8_deterministic (input : Str) (o1 o2 : Except String Str)
    (h1 : pipeline input = o1) (h2 : pipeline input = o2) : o1 = o2 :=
  h1.symm.trans h2

/-- Witness for C8 at the empty input. -/
theorem claim8_deterministic_witness :
    (Except.ok (str "") : Except String Str) = Except.ok (str "") :=
  claim8_deterministic (str "") (Except.ok (str "")) (Except.ok (str "")) rfl rfl

/-! ### C9: the `__main__` block as an event trace -/

/-- The observable file-system/console effects of the `__main__` block. -/
inductive Event where
  | readSource
  | makeDirs
  | writeTarget (contents : Str)
  | printSummary (sectionCount : Nat)
deriving DecidableEq, Repr

/-- The `__main__` block as an event trace: read the source, run
`parse_ts_file` and `generate_markdown`, create the target directory,
write the rendered text, print the summary.  An uncaught failure while
extracting (modelled by `crashDuringExtract`, or by `parse_ts_file`
returning an error) aborts the run before any later statement executes,
exactly as an uncaught Python exception would. -/
def mainTrace (input : Str) (crashDuringExtract : Bool) : List Event :=
  Event.readSource ::
    (if crashDuringExtract then []
     else
       match parse_ts_file input with
       | .error _ => []
       | .ok secs =>
           [Event.makeDirs, Event.writeTarget (generate_markdown secs),
            Event.printSummary secs.length])

/-- **C9**: no write ever happens on a run whose extraction fails
(the previous output file is left untouched), and on a successful run the
single write comes only after extraction and rendering are complete
(after `makeDirs`, before the summary print). -/
theorem claim9_write_only_after_extraction :
    (∀ (input : Str) (out : Str), Event.writeTarget out ∉ mainTrace input true) ∧
    (∀ (input : Str) (secs : List Section), parse_ts_file input = .ok secs →
      mainTrace input false =
        [Event.readSource, Event.makeDirs,
         Event.writeTarget (generate_markdown secs),
         Event.printSummary secs.length]) := by
  constructor
  · intro input out
    simp [mainTrace]
  · intro input secs h
    simp [mainTrace, h]

/-- Witness for C9 at the empty input (which extracts zero sections). -/
theorem claim9_write_only_after_extraction_witness :
    Event.writeTarget (str "x") ∉ mainTrace (str "") true ∧
    mainTrace (str "") false =
      [Event.readSource, Event.makeDirs,
       Event.writeTarget (generate_markdown []),
       Event.printSummary ([] : List Section).length] :=
  ⟨claim9_write_only_after_extraction.1 (str "") (str "x"),
   claim9_write_only_after_extraction.2 (str "") [] rfl⟩

/-! ### C1: the closing test of buffered multi-line capture -/

deriving instance DecidableEq for Except

/-- The buffer after a closing line is processed: the remaining text of
the closing line (if any is left by the stripping) is appended. -/
def closeBuf (buffer : List Str) (line : Str) : List Str :=
  if (closeVal line).isEmpty then buffer else buffer ++ [closeVal line]

/-- A loop state in the middle of buffered content capture. -/
def captureSt : ParserSt :=
  { state := .STATE_IN_CONTENT, sections := [],
    current_section := some { subsections := [] },
    current_subsection := some ({} : Subsection), buffer := [str "A"] }

/-- **C1** is falsified on the line `x` followed by a backtick: it ends
with the closing backtick delimiter (with no trailing comma), yet the
extractor does not terminate the capture — the line is appended to the
buffer verbatim and the state stays `IN_CONTENT` instead of returning to
`IN_SUBSECTION`. -/
theorem claim1_bare_backtick_no_close :
    (str "`").isSuffixOf (str "x`") = true ∧
    step captureSt (str "x`") = .ok { captureSt with buffer := [str "A", str "x`"] } ∧
    (step captureSt (str "x`")).map ParserSt.state ≠ .ok PState.STATE_IN_SUBSECTION := by
  decide

/-- **C1** (amended): during buffered capture of a content or code field,
a line closes the capture exactly when, after stripping surrounding
whitespace, it *ends with backtick-comma* or *is exactly the bare
backtick* (or bare backtick-comma); on such a line all trailing
backticks and commas are stripped, any remaining text (kept with its
leading indentation) is appended to the buffer, the newline-join of the
buffer is stored in the field, and the state returns to
`IN_SUBSECTION`.  A line that merely ends with a bare backtick does not
close: like every other non-closing line it is appended verbatim. -/
theorem claim1_capture_close (st : ParserSt) (sub : Subsection) (line : Str)
    (hsub : st.current_subsection = some sub) :
    (st.state = PState.STATE_IN_CONTENT →
      (closeCond (pyStrip line) = true →
        step st line = .ok
          { st with
              buffer := closeBuf st.buffer line,
              current_subsection := some { sub with content := some (joinNL (closeBuf st.buffer line)) },
              state := PState.STATE_IN_SUBSECTION }) ∧
      (closeCond (pyStrip line) = false →
        step st line = .ok { st with buffer := st.buffer ++ [line] })) ∧
    (st.state = PState.STATE_IN_CODE →
      (closeCond (pyStrip line) = true →
        step st line = .ok
          { st with
              buffer := closeBuf st.buffer line,
              current_subsection := some { sub with code := some (joinNL (closeBuf st.buffer line)) },
              state := PState.STATE_IN_SUBSECTION }) ∧
      (closeCond (pyStrip line) = false →
        step st line = .ok { st with buffer := st.buffer ++ [line] })) := by
  obtain ⟨s, secs, cs, csub, buf⟩ := st
  simp only at hsub
  subst hsub
  refine ⟨fun hs => ?_, fun hs => ?_⟩ <;> subst hs <;>
    refine ⟨fun hc => ?_, fun hc => ?_⟩ <;>
    simp [step, hc, closeBuf]

/-- Witness for the amended C1: closing line `done` + backtick-comma. -/
theorem claim1_capture_close_witness :
    step captureSt (str "done`,") = .ok
      { state := PState.STATE_IN_SUBSECTION, sections := [],
        current_section := some { subsections := [] },
        current_subsection := some { content := some (str "A\ndone") },
        buffer := [str "A", str "done"] } :=
  ((claim1_capture_close captureSt {} (str "done`,") rfl).1 rfl).1 rfl

/-! ### C4: fixed block order within a subsection -/

/-- The two heading lines of a rendered subsection. -/
def subsectionHeader (sub : Subsection) : List Str :=
  [str "## " ++ sub.title.getD (str "Unknown"),
   str "<!-- id: " ++ sub.id.getD [] ++ str " -->\n"]

/-- The prose block of a rendered subsection (empty when absent). -/
def contentBlock (sub : Subsection) : List Str :=
  if (sub.content.getD []).isEmpty then [] else [pyStrip (sub.content.getD []) ++ str "\n"]

/-- The fenced code block of a rendered subsection (empty when absent). -/
def codeBlock (sub : Subsection) : List Str :=
  if (sub.code.getD []).isEmpty then [] else renderCodeBlock (sub.code.getD [])

/-- The Decisions bullet block of a rendered subsection. -/
def decisionsBlock (sub : Subsection) : List Str :=
  if (sub.decisions.getD []).isEmpty then []
  else [str "### Decisions"] ++ (sub.decisions.getD []).map (fun d => str "- " ++ d) ++ [[]]

/-- The Notes bullet block of a rendered subsection. -/
def notesBlock (sub : Subsection) : List Str :=
  if (sub.notes.getD []).isEmpty then []
  else [str "### Notes"] ++ (sub.notes.getD []).map (fun n => str "- " ++ n) ++ [[]]

/-- Decomposition of a rendered subsection into its header and blocks. -/
lemma renderSubsection_blocks (sub : Subsection) :
    renderSubsection sub =
      subsectionHeader sub ++ contentBlock sub ++ codeBlock sub ++
        decisionsBlock sub ++ notesBlock sub := by
  simp only [renderSubsection, subsectionHeader, contentBlock, codeBlock, decisionsBlock,
    notesBlock]
  split_ifs <;> simp

/-- **C4**: every rendered subsection is its heading lines, then the
content block (if present), then the code block (if present), then the
Decisions bullets (if non-empty), then the Notes bullets (if non-empty),
in that fixed order; the record passed to the renderer carries no trace
of the order in which extraction populated the fields. -/
theorem claim4_block_order (sub : Subsection) :
    renderSubsection sub =
      subsectionHeader sub ++ contentBlock sub ++ codeBlock sub ++
        decisionsBlock sub ++ notesBlock sub :=
  renderSubsection_blocks sub

/-! ### C5: multi-line field fidelity -/

/-- Non-closing lines are appended to the capture buffer verbatim (in
either buffered-capture state), so a run of them extends the buffer by
exactly those lines. -/
lemma captureRun (mid : List Str) :
    ∀ st : ParserSt,
      (st.state = .STATE_IN_CONTENT ∨ st.state = .STATE_IN_CODE) →
      (∀ l ∈ mid, closeCond (pyStrip l) = false) →
      List.foldlM step st mid = .ok { st with buffer := st.buffer ++ mid } := by
  induction mid with
  | nil =>
      intro st h1 h2
      rw [List.append_nil]
      rfl
  | cons l ls ih =>
      intro st h1 h2
      have hl : closeCond (pyStrip l) = false := h2 l (by simp)
      have hstep : step st l = .ok { st with buffer := st.buffer ++ [l] } := by
        obtain ⟨s, secs, cs, csub, buf⟩ := st
        simp only at h1
        rcases h1 with h1 | h1 <;> (subst h1; simp [step, hl])
      rw [List.foldlM_cons, hstep]
      have h1b : ({ st with buffer := st.buffer ++ [l] } : ParserSt).state = .STATE_IN_CONTENT ∨
          ({ st with buffer := st.buffer ++ [l] } : ParserSt).state = .STATE_IN_CODE := h1
      have := ih { st with buffer := st.buffer ++ [l] } h1b (fun x hx => h2 x (by simp [hx]))
      show List.foldlM step { st with buffer := st.buffer ++ [l] } ls = _
      rw [this]
      simp

/-- **C5**: a content or code field captured from the opening fragment
`first`, the non-closing lines `mid` (blank lines and indentation
included, since such lines never satisfy the closing test), and a bare
backtick-comma closing line, is stored as exactly those lines joined
with newlines; the renderer reproduces that whole field under a single
leading/trailing whitespace trim — as the prose block for `content`, and
as the text between the fence lines for `code`. -/
theorem claim5_multiline_fidelity (S : List Section) (cs : Option Section) (sub : Subsection)
    (first : Str) (mid : List Str)
    (hmid : ∀ l ∈ mid, closeCond (pyStrip l) = false)
    (hne : joinNL (first :: mid) ≠ []) :
    (∃ st2 : ParserSt,
      List.foldlM step
        { state := .STATE_IN_CONTENT, sections := S, current_section := cs,
          current_subsection := some sub, buffer := [first] } (mid ++ [str "`,"]) = .ok st2 ∧
      st2.state = .STATE_IN_SUBSECTION ∧
      st2.current_subsection = some { sub with content := some (joinNL (first :: mid)) } ∧
      contentBlock { sub with content := some (joinNL (first :: mid)) } =
        [pyStrip (joinNL (first :: mid)) ++ str "\n"]) ∧
    (∃ st2 : ParserSt,
      List.foldlM step
        { state := .STATE_IN_CODE, sections := S, current_section := cs,
          current_subsection := some sub, buffer := [first] } (mid ++ [str "`,"]) = .ok st2 ∧
      st2.state = .STATE_IN_SUBSECTION ∧
      st2.current_subsection = some { sub with code := some (joinNL (first :: mid)) } ∧
      codeBlock { sub with code := some (joinNL (first :: mid)) } =
        (if isDiagram (joinNL (first :: mid)) then [str "```typescript", str "```text"]
         else [str "```typescript"]) ++
          [pyStrip (joinNL (first :: mid)), str "```\n"]) := by
  constructor
  · have hrun := captureRun mid
      { state := .STATE_IN_CONTENT, sections := S, current_section := cs,
        current_subsection := some sub, buffer := [first] } (Or.inl rfl) hmid
    refine ⟨{ state := .STATE_IN_SUBSECTION, sections := S, current_section := cs,
              current_subsection := some { sub with content := some (joinNL (first :: mid)) },
              buffer := first :: mid }, ?_, rfl, rfl, ?_⟩
    · rw [List.foldlM_append, hrun]
      show List.foldlM step
        { state := .STATE_IN_CONTENT, sections := S, current_section := cs,
          current_subsection := some sub, buffer := [first] ++ mid } [str "`,"] = _
      rw [List.foldlM_cons]
      rfl
    · simp [contentBlock, hne]
  · have hrun := captureRun mid
      { state := .STATE_IN_CODE, sections := S, current_section := cs,
        current_subsection := some sub, buffer := [first] } (Or.inr rfl) hmid
    refine ⟨{ state := .STATE_IN_SUBSECTION, sections := S, current_section := cs,
              current_subsection := some { sub with code := some (joinNL (first :: mid)) },
              buffer := first :: mid }, ?_, rfl, rfl, ?_⟩
    · rw [List.foldlM_append, hrun]
      show List.foldlM step
        { state := .STATE_IN_CODE, sections := S, current_section := cs,
          current_subsection := some sub, buffer := [first] ++ mid } [str "`,"] = _
      rw [List.foldlM_cons]
      rfl
    · by_cases hd : isDiagram (joinNL (first :: mid)) = true <;>
        simp [codeBlock, renderCodeBlock, setLast, hne, hd]

/-- Witness for C5: capture over a blank line and an indented line, for
both the content and the code path. -/
theorem claim5_multiline_fidelity_witness :
    (∃ st2 : ParserSt,
      List.foldlM step
        { state := .STATE_IN_CONTENT, sections := [], current_section := none,
          current_subsection := some ({} : Subsection), buffer := [str "  alpha"] }
        ([str "", str "   beta"] ++ [str "`,"]) = .ok st2 ∧
      st2.state = .STATE_IN_SUBSECTION ∧
      st2.current_subsection =
        some { ({} : Subsection) with content := some (joinNL [str "  alpha", str "", str "   beta"]) } ∧
      contentBlock { ({} : Subsection) with content := some (joinNL [str "  alpha", str "", str "   beta"]) } =
        [pyStrip (joinNL [str "  alpha", str "", str "   beta"]) ++ str "\n"]) ∧
    (∃ st2 : ParserSt,
      List.foldlM step
        { state := .STATE_IN_CODE, sections := [], current_section := none,
          current_subsection := some ({} : Subsection), buffer := [str "  alpha"] }
        ([str "", str "   beta"] ++ [str "`,"]) = .ok st2 ∧
      st2.state = .STATE_IN_SUBSECTION ∧
      st2.current_subsection =
        some { ({} : Subsection) with code := some (joinNL [str "  alpha", str "", str "   beta"]) } ∧
      codeBlock { ({} : Subsection) with code := some (joinNL [str "  alpha", str "", str "   beta"]) } =
        (if isDiagram (joinNL [str "  alpha", str "", str "   beta"])
         then [str "```typescript", str "```text"] else [str "```typescript"]) ++
          [pyStrip (joinNL [str "  alpha", str "", str "   beta"]), str "```\n"]) :=
  claim5_multiline_fidelity [] none {} (str "  alpha") [str "", str "   beta"]
    (by decide) (by decide)

/-! ### C6: declaration order is preserved end to end -/

/-- A closing-brace line in `IN_SECTION` appends the current section at
the end of the output sequence. -/
lemma sectionCloseStep (st : ParserSt) (sec : Section) (line : Str)
    (h1 : st.state = .STATE_IN_SECTION) (h2 : st.current_section = some sec)
    (h3 : pyStrip line = str "\x7d," ∨ pyStrip line = str "\x7d") :
    step st line = .ok
      { st with
          sections := st.sections ++ [sec],
          state := .STATE_IN_SECTIONS_ARRAY } := by
  obtain ⟨s, secs, cs, csub, buf⟩ := st
  simp only at h1 h2
  subst h1; subst h2
  rcases h3 with h3 | h3 <;> (simp only [step]; rw [h3]; rfl)

/-- A closing-brace line in `IN_SUBSECTION` appends the current
subsection at the end of its parent's subsection sequence. -/
lemma subsectionCloseStep (st : ParserSt) (sec : Section) (sub : Subsection) (line : Str)
    (h1 : st.state = .STATE_IN_SUBSECTION) (h2 : st.current_section = some sec)
    (h2b : st.current_subsection = some sub)
    (h3 : pyStrip line = str "\x7d," ∨ pyStrip line = str "\x7d") :
    step st line = .ok
      { st with
          current_section := some { sec with subsections := sec.subsections ++ [sub] },
          state := .STATE_IN_SUBSECTIONS_ARRAY } := by
  obtain ⟨s, secs, cs, csub, buf⟩ := st
  simp only at h1 h2 h2b
  subst h1; subst h2; subst h2b
  rcases h3 with h3 | h3 <;> (simp only [step]; rw [h3]; rfl)

/-- **C6**: extraction appends each section (resp. subsection) at the end
of its sequence when its closing delimiter is read, and the renderer maps
over both sequences homomorphically, so the rendered document lists
sections, and subsections within each section, in declaration order. -/
theorem claim6_declaration_order :
    (∀ (st : ParserSt) (sec : Section) (line : Str),
        st.state = .STATE_IN_SECTION → st.current_section = some sec →
        pyStrip line = str "\x7d," ∨ pyStrip line = str "\x7d" →
        ∃ st2, step st line = .ok st2 ∧ st2.sections = st.sections ++ [sec]) ∧
    (∀ (st : ParserSt) (sec : Section) (sub : Subsection) (line : Str),
        st.state = .STATE_IN_SUBSECTION → st.current_section = some sec →
        st.current_subsection = some sub →
        pyStrip line = str "\x7d," ∨ pyStrip line = str "\x7d" →
        ∃ st2, step st line = .ok st2 ∧
          st2.current_section = some { sec with subsections := sec.subsections ++ [sub] }) ∧
    (∀ xs ys : List Section,
        (xs ++ ys).flatMap renderSection = xs.flatMap renderSection ++ ys.flatMap renderSection) ∧
    (∀ (sec : Section) (xs ys : List Subsection),
        renderSection { sec with subsections := xs ++ ys } =
          renderSection { sec with subsections := xs } ++ ys.flatMap renderSubsection) := by
  refine ⟨?_, ?_, ?_, ?_⟩
  · intro st sec line h1 h2 h3
    exact ⟨_, sectionCloseStep st sec line h1 h2 h3, rfl⟩
  · intro st sec sub line h1 h2 h2b h3
    exact ⟨_, subsectionCloseStep st sec sub line h1 h2 h2b h3, rfl⟩
  · intro xs ys
    simp [List.flatMap_append]
  · intro sec xs ys
    simp [renderSection, List.flatMap_append, List.append_assoc]

/-- The default (empty) section record. -/
def secEmpty : Section := {}

/-- The default (empty) subsection record. -/
def subEmpty : Subsection := {}

/-- A loop state scanning inside a section. -/
def secSt : ParserSt :=
  { state := .STATE_IN_SECTION, sections := [], current_section := some secEmpty,
    current_subsection := none, buffer := [] }

/-- A loop state scanning inside a subsection. -/
def subSt : ParserSt :=
  { state := .STATE_IN_SUBSECTION, sections := [], current_section := some secEmpty,
    current_subsection := some subEmpty, buffer := [] }

/-- Witness for C6 at concrete closing lines and singleton lists. -/
theorem claim6_declaration_order_witness :
    (∃ st2, step secSt (str "  \x7d") = .ok st2 ∧
       st2.sections = secSt.sections ++ [secEmpty]) ∧
    (∃ st2, step subSt (str "  \x7d,") = .ok st2 ∧
       st2.current_section = some { secEmpty with subsections := secEmpty.subsections ++ [subEmpty] }) ∧
    (([secEmpty] ++ [secEmpty]).flatMap renderSection =
       [secEmpty].flatMap renderSection ++ [secEmpty].flatMap renderSection) ∧
    (renderSection { secEmpty with subsections := [subEmpty] ++ [subEmpty] } =
       renderSection { secEmpty with subsections := [subEmpty] } ++ [subEmpty].flatMap renderSubsection) :=
  ⟨claim6_declaration_order.1 secSt secEmpty (str "  \x7d") rfl rfl (Or.inr (by decide)),
   claim6_declaration_order.2.1 subSt secEmpty subEmpty (str "  \x7d,") rfl rfl rfl (Or.inl (by decide)),
   claim6_declaration_order.2.2.1 [secEmpty] [secEmpty],
   claim6_declaration_order.2.2.2 secEmpty [subEmpty] [subEmpty]⟩

/-! ### C7: the extractor is total on arbitrary input -/

/-- Stripping on the right yields a prefix. -/
lemma rstripBy_prefix_self (p : Char → Bool) (s : Str) : rstripBy p s <+: s := by
  have h1 : s.reverse.dropWhile p <:+ s.reverse := List.dropWhile_suffix p
  have h2 : (s.reverse.dropWhile p).reverse <+: s.reverse.reverse :=
    List.reverse_prefix.2 h1
  rwa [List.reverse_reverse] at h2

/-- A stripped line is an infix of the line. -/
lemma pyStrip_infix_self (s : Str) : pyStrip s <:+: s :=
  (rstripBy_prefix_self isPySpace (lstripBy isPySpace s)).isInfix.trans
    (List.dropWhile_suffix isPySpace).isInfix

/-- Splitting on a pattern that occurs in the string succeeds. -/
lemma splitFirstAfter_isSome (pat : Str) (s : Str) (h : pat <:+: s) :
    (splitFirstAfter pat s).isSome = true := by
  induction s with
  | nil =>
      rw [List.infix_nil] at h
      subst h
      simp [splitFirstAfter, List.isPrefixOf]
  | cons c t ih =>
      by_cases hp : pat.isPrefixOf (c :: t) = true
      · simp [splitFirstAfter, hp]
      · have h2 : pat <:+: t := by
          rcases List.infix_cons_iff.1 h with h3 | h3
          · exact absurd (List.isPrefixOf_iff_prefix.2 h3) hp
          · exact h3
        simpa [splitFirstAfter, hp] using ih h2

/-- If `pat1` starts the stripped line and `pat2` occurs inside `pat1`,
then splitting the raw line on `pat2` succeeds. -/
lemma line_split_isSome (pat1 pat2 line : Str)
    (h1 : pat1.isPrefixOf (pyStrip line) = true) (h2 : pat2 <:+: pat1) :
    (splitFirstAfter pat2 line).isSome = true :=
  splitFirstAfter_isSome pat2 line
    (h2.trans ((List.isPrefixOf_iff_prefix.1 h1).isInfix.trans (pyStrip_infix_self line)))

/-- The loop invariant of `parse_ts_file`: whenever the machine is inside
a section (resp. subsection, resp. a notes/decisions list) the
corresponding current record (resp. list field) is present. -/
def ParserInv (st : ParserSt) : Prop :=
  ((st.state = .STATE_IN_SECTION ∨ st.state = .STATE_IN_SUBSECTIONS_ARRAY) →
      st.current_section.isSome = true) ∧
  ((st.state = .STATE_IN_SUBSECTION ∨ st.state = .STATE_IN_CONTENT ∨
      st.state = .STATE_IN_CODE ∨ st.state = .STATE_IN_NOTES ∨
      st.state = .STATE_IN_DECISIONS) →
      st.current_section.isSome = true ∧ st.current_subsection.isSome = true) ∧
  (st.state = .STATE_IN_NOTES →
      ∀ sub, st.current_subsection = some sub → sub.notes.isSome = true) ∧
  (st.state = .STATE_IN_DECISIONS →
      ∀ sub, st.current_subsection = some sub → sub.decisions.isSome = true)

/-- Totality of one step from the `IN_SECTION` state. -/
lemma step_total_in_section (st : ParserSt) (line : Str)
    (hs : st.state = .STATE_IN_SECTION) (h1 : st.current_section.isSome = true) :
    ∃ st2, step st line = .ok st2 ∧ ParserInv st2 := by
  obtain ⟨sec, hcs⟩ := Option.isSome_iff_exists.1 h1
  by_cases hp1 : (str "id:").isPrefixOf (pyStrip line) = true
  · obtain ⟨rest, hrest⟩ := Option.isSome_iff_exists.1
      (splitFirstAfter_isSome (str ":") (pyStrip line)
        ((show (str ":") <:+: str "id:" by decide).trans
          (List.isPrefixOf_iff_prefix.1 hp1).isInfix))
    refine ⟨{ st with current_section := some { sec with id := some (clean_str rest) } },
      by simp [step, hs, hp1, hcs, hrest], ?_⟩
    simp [ParserInv, hs]
  · by_cases hp2 : (str "title:").isPrefixOf (pyStrip line) = true
    · obtain ⟨rest, hrest⟩ := Option.isSome_iff_exists.1
        (splitFirstAfter_isSome (str ":") (pyStrip line)
          ((show (str ":") <:+: str "title:" by decide).trans
            (List.isPrefixOf_iff_prefix.1 hp2).isInfix))
      refine ⟨{ st with current_section := some { sec with title := some (clean_str rest) } },
        by simp [step, hs, hp1, hp2, hcs, hrest], ?_⟩
      simp [ParserInv, hs]
    · by_cases hp3 : (str "icon:").isPrefixOf (pyStrip line) = true
      · obtain ⟨rest, hrest⟩ := Option.isSome_iff_exists.1
          (splitFirstAfter_isSome (str ":") (pyStrip line)
            ((show (str ":") <:+: str "icon:" by decide).trans
              (List.isPrefixOf_iff_prefix.1 hp3).isInfix))
        refine ⟨{ st with current_section := some { sec with icon := some (clean_str rest) } },
          by simp [step, hs, hp1, hp2, hp3, hcs, hrest], ?_⟩
        simp [ParserInv, hs]
      · by_cases hp4 : (str "subsections: [").isPrefixOf (pyStrip line) = true
        · refine ⟨{ st with state := .STATE_IN_SUBSECTIONS_ARRAY },
            by simp [step, hs, hp1, hp2, hp3, hp4], ?_⟩
          simp [ParserInv, h1]
        · by_cases hp5 : pyStrip line = str "\x7d," ∨ pyStrip line = str "\x7d"
          · exact ⟨_, sectionCloseStep st sec line hs hcs hp5, by simp [ParserInv]⟩
          · obtain ⟨hp5a, hp5b⟩ := not_or.1 hp5
            refine ⟨st, by simp [step, hs, hp1, hp2, hp3, hp4, hp5a, hp5b], ?_⟩
            refine ⟨fun _ => h1, ?_, ?_, ?_⟩ <;> simp [hs]

/-- Totality of one step from the `ROOT` state. -/
lemma step_total_root (st : ParserSt) (line : Str)
    (hs : st.state = .STATE_ROOT) :
    ∃ st2, step st line = .ok st2 ∧ ParserInv st2 := by
  by_cases hc : containsSub (str "export const specSections") line = true
  · refine ⟨{ st with state := .STATE_IN_SECTIONS_ARRAY }, by simp [step, hs, hc], ?_⟩
    simp [ParserInv]
  · refine ⟨st, by simp [step, hs, hc], ?_⟩
    refine ⟨?_, ?_, ?_, ?_⟩ <;> simp [hs]

/-- Totality of one step from the `IN_SECTIONS_ARRAY` state. -/
lemma step_total_sections_array (st : ParserSt) (line : Str)
    (hs : st.state = .STATE_IN_SECTIONS_ARRAY) :
    ∃ st2, step st line = .ok st2 ∧ ParserInv st2 := by
  by_cases hb : pyStrip line = str "\x7b"
  · refine ⟨{ st with
                current_section := some { subsections := [] },
                state := .STATE_IN_SECTION }, by simp [step, hs, hb], ?_⟩
    simp [ParserInv]
  · by_cases he : pyStrip line = str "];"
    · refine ⟨{ st with state := .STATE_ROOT }, by simp [step, hs, hb, he]; decide, ?_⟩
      simp [ParserInv]
    · refine ⟨st, by simp [step, hs, hb, he], ?_⟩
      refine ⟨fun hx => by simp [hs] at hx, ?_, ?_, ?_⟩ <;> simp [hs]

/-- Totality of one step from the `IN_SUBSECTIONS_ARRAY` state. -/
lemma step_total_subsections_array (st : ParserSt) (line : Str)
    (hs : st.state = .STATE_IN_SUBSECTIONS_ARRAY)
    (h1 : st.current_section.isSome = true) :
    ∃ st2, step st line = .ok st2 ∧ ParserInv st2 := by
  by_cases hb : pyStrip line = str "\x7b"
  · refine ⟨{ st with
                current_subsection := some ({} : Subsection),
                state := .STATE_IN_SUBSECTION }, by simp [step, hs, hb], ?_⟩
    refine ⟨?_, ?_, ?_, ?_⟩ <;> simp [h1]
  · by_cases hc : pyStrip line = str "],"
    · refine ⟨{ st with state := .STATE_IN_SECTION }, by simp [step, hs, hb, hc]; decide, ?_⟩
      refine ⟨?_, ?_, ?_, ?_⟩ <;> simp [h1]
    · by_cases hd : pyStrip line = str "]"
      · refine ⟨{ st with state := .STATE_IN_SECTION }, by simp [step, hs, hb, hc, hd]; decide, ?_⟩
        refine ⟨?_, ?_, ?_, ?_⟩ <;> simp [h1]
      · refine ⟨st, by simp [step, hs, hb, hc, hd], ?_⟩
        refine ⟨fun _ => h1, ?_, ?_, ?_⟩ <;> simp [hs]

/-- Totality of one step from the `IN_SUBSECTION` state. -/
lemma step_total_in_subsection (st : ParserSt) (line : Str)
    (hs : st.state = .STATE_IN_SUBSECTION)
    (h1 : st.current_section.isSome = true) (h2 : st.current_subsection.isSome = true) :
    ∃ st2, step st line = .ok st2 ∧ ParserInv st2 := by
  obtain ⟨sec, hcs⟩ := Option.isSome_iff_exists.1 h1
  obtain ⟨sub, hcsub⟩ := Option.isSome_iff_exists.1 h2
  by_cases hp1 : (str "id:").isPrefixOf (pyStrip line) = true
  · obtain ⟨rest, hrest⟩ := Option.isSome_iff_exists.1
      (splitFirstAfter_isSome (str ":") (pyStrip line)
        ((show (str ":") <:+: str "id:" by decide).trans
          (List.isPrefixOf_iff_prefix.1 hp1).isInfix))
    refine ⟨{ st with current_subsection := some { sub with id := some (clean_str rest) } },
      by simp [step, hs, hp1, hcsub, hrest], ?_⟩
    simp [ParserInv, hs, h1]
  · by_cases hp2 : (str "title:").isPrefixOf (pyStrip line) = true
    · obtain ⟨rest, hrest⟩ := Option.isSome_iff_exists.1
        (splitFirstAfter_isSome (str ":") (pyStrip line)
          ((show (str ":") <:+: str "title:" by decide).trans
            (List.isPrefixOf_iff_prefix.1 hp2).isInfix))
      refine ⟨{ st with current_subsection := some { sub with title := some (clean_str rest) } },
        by simp [step, hs, hp1, hp2, hcsub, hrest], ?_⟩
      simp [ParserInv, hs, h1]
    · by_cases hp3 : (str "content: `").isPrefixOf (pyStrip line) = true
      · obtain ⟨cv, hcv⟩ := Option.isSome_iff_exists.1
          (line_split_isSome (str "content: `") (str "content: `") line hp3 (List.infix_refl _))
        by_cases hsl : singleLineCond cv = true
        · refine ⟨{ st with current_subsection := some { sub with content := some (rsplitBeforeChar backtick cv) } },
            by simp [step, hs, hp1, hp2, hp3, hcsub, hcv, hsl], ?_⟩
          simp [ParserInv, hs, h1]
        · refine ⟨{ st with buffer := [cv], state := .STATE_IN_CONTENT },
            by simp [step, hs, hp1, hp2, hp3, hcsub, hcv, hsl], ?_⟩
          simp [ParserInv, h1, h2]
      · by_cases hp4 : (str "code: `").isPrefixOf (pyStrip line) = true
        · obtain ⟨cv, hcv⟩ := Option.isSome_iff_exists.1
            (line_split_isSome (str "code: `") (str "code: `") line hp4 (List.infix_refl _))
          by_cases hsl : singleLineCond cv = true
          · refine ⟨{ st with current_subsection := some { sub with code := some (rsplitBeforeChar backtick cv) } },
              by simp [step, hs, hp1, hp2, hp3, hp4, hcsub, hcv, hsl], ?_⟩
            simp [ParserInv, hs, h1]
          · refine ⟨{ st with buffer := [cv], state := .STATE_IN_CODE },
              by simp [step, hs, hp1, hp2, hp3, hp4, hcsub, hcv, hsl], ?_⟩
            simp [ParserInv, h1, h2]
        · by_cases hp5 : (str "notes: [").isPrefixOf (pyStrip line) = true
          · refine ⟨{ st with
                        current_subsection := some { sub with notes := some [] },
                        state := .STATE_IN_NOTES },
              by simp [step, hs, hp1, hp2, hp3, hp4, hp5, hcsub], ?_⟩
            simp [ParserInv, h1]
          · by_cases hp6 : (str "decisions: [").isPrefixOf (pyStrip line) = true
            · refine ⟨{ st with
                          current_subsection := some { sub with decisions := some [] },
                          state := .STATE_IN_DECISIONS },
                by simp [step, hs, hp1, hp2, hp3, hp4, hp5, hp6, hcsub], ?_⟩
              simp [ParserInv, h1]
            · by_cases hp7 : pyStrip line = str "\x7d," ∨ pyStrip line = str "\x7d"
              · exact ⟨_, subsectionCloseStep st sec sub line hs hcs hcsub hp7,
                  by simp [ParserInv]⟩
              · obtain ⟨hp7a, hp7b⟩ := not_or.1 hp7
                refine ⟨st, by simp [step, hs, hp1, hp2, hp3, hp4, hp5, hp6, hp7a, hp7b], ?_⟩
                exact ⟨fun hx => by simp [hs] at hx, fun _ => ⟨h1, h2⟩,
                  fun hx => by simp [hs] at hx, fun hx => by simp [hs] at hx⟩

/-- Totality of one step from the `IN_CONTENT` state. -/
lemma step_total_in_content (st : ParserSt) (line : Str)
    (hs : st.state = .STATE_IN_CONTENT)
    (h1 : st.current_section.isSome = true) (h2 : st.current_subsection.isSome = true) :
    ∃ st2, step st line = .ok st2 ∧ ParserInv st2 := by
  obtain ⟨sub, hcsub⟩ := Option.isSome_iff_exists.1 h2
  by_cases hc : closeCond (pyStrip line) = true
  · refine ⟨{ st with
                buffer := closeBuf st.buffer line,
                current_subsection := some { sub with content := some (joinNL (closeBuf st.buffer line)) },
                state := .STATE_IN_SUBSECTION }, ?_, ?_⟩
    · simp [step, hs, hc, hcsub, closeBuf]
    · simp [ParserInv, h1]
  · refine ⟨{ st with buffer := st.buffer ++ [line] }, by simp [step, hs, hc], ?_⟩
    exact ⟨fun hx => by simp [hs] at hx, fun _ => ⟨h1, h2⟩,
      fun hx => by simp [hs] at hx, fun hx => by simp [hs] at hx⟩

/-- Totality of one step from the `IN_CODE` state. -/
lemma step_total_in_code (st : ParserSt) (line : Str)
    (hs : st.state = .STATE_IN_CODE)
    (h1 : st.current_section.isSome = true) (h2 : st.current_subsection.isSome = true) :
    ∃ st2, step st line = .ok st2 ∧ ParserInv st2 := by
  obtain ⟨sub, hcsub⟩ := Option.isSome_iff_exists.1 h2
  by_cases hc : closeCond (pyStrip line) = true
  · refine ⟨{ st with
                buffer := closeBuf st.buffer line,
                current_subsection := some { sub with code := some (joinNL (closeBuf st.buffer line)) },
                state := .STATE_IN_SUBSECTION }, ?_, ?_⟩
    · simp [step, hs, hc, hcsub, closeBuf]
    · simp [ParserInv, h1]
  · refine ⟨{ st with buffer := st.buffer ++ [line] }, by simp [step, hs, hc], ?_⟩
    exact ⟨fun hx => by simp [hs] at hx, fun _ => ⟨h1, h2⟩,
      fun hx => by simp [hs] at hx, fun hx => by simp [hs] at hx⟩

/-- Totality of one step from the `IN_NOTES` state. -/
lemma step_total_in_notes (st : ParserSt) (line : Str)
    (hs : st.state = .STATE_IN_NOTES)
    (h1 : st.current_section.isSome = true) (h2 : st.current_subsection.isSome = true)
    (h3 : ∀ sub, st.current_subsection = some sub → sub.notes.isSome = true) :
    ∃ st2, step st line = .ok st2 ∧ ParserInv st2 := by
  obtain ⟨sub, hcsub⟩ := Option.isSome_iff_exists.1 h2
  obtain ⟨ns, hns⟩ := Option.isSome_iff_exists.1 (h3 sub hcsub)
  by_cases hq1 : [squote].isPrefixOf (pyStrip line) = true
  · refine ⟨{ st with current_subsection := some { sub with notes := some (ns ++ [stripChar '"' (stripChar squote (rstripChar ',' (pyStrip (pyStrip line))))]) } },
      by simp [step, hs, hq1, hcsub, hns], ?_⟩
    simp [ParserInv, hs, h1]
  · by_cases hq2 : (str "\"").isPrefixOf (pyStrip line) = true
    · refine ⟨{ st with current_subsection := some { sub with notes := some (ns ++ [stripChar '"' (stripChar squote (rstripChar ',' (pyStrip (pyStrip line))))]) } },
        by simp [step, hs, hq1, hq2, hcsub, hns], ?_⟩
      simp [ParserInv, hs, h1]
    · by_cases hr1 : (str "],").isPrefixOf (pyStrip line) = true
      · refine ⟨{ st with state := .STATE_IN_SUBSECTION },
          by simp [step, hs, hq1, hq2, hr1], ?_⟩
        simp [ParserInv, h1, h2]
      · by_cases hr2 : pyStrip line = str "]"
        · refine ⟨{ st with state := .STATE_IN_SUBSECTION },
            by simp [step, hs, hq1, hq2, hr1, hr2]; intro hx; exact absurd hx (by decide), ?_⟩
          simp [ParserInv, h1, h2]
        · refine ⟨st, by simp [step, hs, hq1, hq2, hr1, hr2], ?_⟩
          exact ⟨fun hx => by simp [hs] at hx, fun _ => ⟨h1, h2⟩,
            fun _ => h3, fun hx => by simp [hs] at hx⟩

/-- Totality of one step from the `IN_DECISIONS` state. -/
lemma step_total_in_decisions (st : ParserSt) (line : Str)
    (hs : st.state = .STATE_IN_DECISIONS)
    (h1 : st.current_section.isSome = true) (h2 : st.current_subsection.isSome = true)
    (h4 : ∀ sub, st.current_subsection = some sub → sub.decisions.isSome = true) :
    ∃ st2, step st line = .ok st2 ∧ ParserInv st2 := by
  obtain ⟨sub, hcsub⟩ := Option.isSome_iff_exists.1 h2
  obtain ⟨ds, hds⟩ := Option.isSome_iff_exists.1 (h4 sub hcsub)
  by_cases hq1 : [squote].isPrefixOf (pyStrip line) = true
  · refine ⟨{ st with current_subsection := some { sub with decisions := some (ds ++ [stripChar '"' (stripChar squote (rstripChar ',' (pyStrip (pyStrip line))))]) } },
      by simp [step, hs, hq1, hcsub, hds], ?_⟩
    simp [ParserInv, hs, h1]
  · by_cases hq2 : (str "\"").isPrefixOf (pyStrip line) = true
    · refine ⟨{ st with current_subsection := some { sub with decisions := some (ds ++ [stripChar '"' (stripChar squote (rstripChar ',' (pyStrip (pyStrip line))))]) } },
        by simp [step, hs, hq1, hq2, hcsub, hds], ?_⟩
      simp [ParserInv, hs, h1]
    · by_cases hr1 : (str "],").isPrefixOf (pyStrip line) = true
      · refine ⟨{ st with state := .STATE_IN_SUBSECTION },
          by simp [step, hs, hq1, hq2, hr1], ?_⟩
        simp [ParserInv, h1, h2]
      · by_cases hr2 : pyStrip line = str "]"
        · refine ⟨{ st with state := .STATE_IN_SUBSECTION },
            by simp [step, hs, hq1, hq2, hr1, hr2]; intro hx; exact absurd hx (by decide), ?_⟩
          simp [ParserInv, h1, h2]
        · refine ⟨st, by simp [step, hs, hq1, hq2, hr1, hr2], ?_⟩
          exact ⟨fun hx => by simp [hs] at hx, fun _ => ⟨h1, h2⟩,
            fun hx => by simp [hs] at hx, fun _ => h4⟩

/-- Every step from an invariant state succeeds and preserves the
invariant: unrecognized lines and out-of-place field markers fall into
the `else` branches, which leave the state untouched. -/
lemma step_total (st : ParserSt) (line : Str) (h : ParserInv st) :
    ∃ st2, step st line = .ok st2 ∧ ParserInv st2 := by
  obtain ⟨h1, h2, h3, h4⟩ := h
  cases hs : st.state with
  | STATE_ROOT => exact step_total_root st line hs
  | STATE_IN_SECTIONS_ARRAY => exact step_total_sections_array st line hs
  | STATE_IN_SECTION => exact step_total_in_section st line hs (h1 (Or.inl hs))
  | STATE_IN_SUBSECTIONS_ARRAY => exact step_total_subsections_array st line hs (h1 (Or.inr hs))
  | STATE_IN_SUBSECTION =>
      obtain ⟨ha, hb⟩ := h2 (Or.inl hs)
      exact step_total_in_subsection st line hs ha hb
  | STATE_IN_CONTENT =>
      obtain ⟨ha, hb⟩ := h2 (Or.inr (Or.inl hs))
      exact step_total_in_content st line hs ha hb
  | STATE_IN_CODE =>
      obtain ⟨ha, hb⟩ := h2 (Or.inr (Or.inr (Or.inl hs)))
      exact step_total_in_code st line hs ha hb
  | STATE_IN_NOTES =>
      obtain ⟨ha, hb⟩ := h2 (Or.inr (Or.inr (Or.inr (Or.inl hs))))
      exact step_total_in_notes st line hs ha hb (h3 hs)
  | STATE_IN_DECISIONS =>
      obtain ⟨ha, hb⟩ := h2 (Or.inr (Or.inr (Or.inr (Or.inr hs))))
      exact step_total_in_decisions st line hs ha hb (h4 hs)

/-- The whole line loop succeeds from any invariant state. -/
lemma foldlM_total (lines : List Str) : ∀ st : ParserSt, ParserInv st →
    ∃ st2, List.foldlM step st lines = .ok st2 ∧ ParserInv st2 := by
  induction lines with
  | nil => exact fun st h => ⟨st, rfl, h⟩
  | cons l ls ih =>
      intro st h
      obtain ⟨st1, he, hinv1⟩ := step_total st l h
      obtain ⟨st2, he2, hinv2⟩ := ih st1 hinv1
      refine ⟨st2, ?_, hinv2⟩
      rw [List.foldlM_cons, he]
      exact he2

/-- **C7**: on every input text — well-formed or not — the extractor
returns normally with a list of sections: none of the spots where the
Python code could raise (modelled as `Except.error`) is reachable,
unrecognized lines in any state being skipped and field markers in
unexpected states ignored. -/
theorem claim7_extractor_total (content : Str) :
    ∃ secs, parse_ts_file content = .ok secs := by
  obtain ⟨st2, he, _⟩ := foldlM_total (content.splitOn '\n') initSt
    (by refine ⟨?_, ?_, ?_, ?_⟩ <;> simp [initSt])
  exact ⟨st2.sections, by simp [parse_ts_file, he]⟩

/-! ### C10: defaults for records closed without some field markers -/

/-- **C10**: for every subsection record missing its `title` field the
heading renders the literal `Unknown`; for every record missing `id` the
metadata comment carries an empty id; for every record missing
`content`, `code`, `notes` or `decisions` the corresponding block is
simply absent (no error), the other blocks being unaffected; and the
same title/id defaults hold for section records. -/
theorem claim10_missing_field_defaults :
    (∀ sub : Subsection, sub.title = none →
        renderSubsection sub =
          [str "## Unknown", str "<!-- id: " ++ sub.id.getD [] ++ str " -->\n"] ++
            contentBlock sub ++ codeBlock sub ++ decisionsBlock sub ++ notesBlock sub) ∧
    (∀ sub : Subsection, sub.id = none →
        renderSubsection sub =
          [str "## " ++ sub.title.getD (str "Unknown"), str "<!-- id:  -->\n"] ++
            contentBlock sub ++ codeBlock sub ++ decisionsBlock sub ++ notesBlock sub) ∧
    (∀ sub : Subsection, sub.content = none →
        renderSubsection sub =
          subsectionHeader sub ++ codeBlock sub ++ decisionsBlock sub ++ notesBlock sub) ∧
    (∀ sub : Subsection, sub.code = none →
        renderSubsection sub =
          subsectionHeader sub ++ contentBlock sub ++ decisionsBlock sub ++ notesBlock sub) ∧
    (∀ sub : Subsection, sub.notes = none →
        renderSubsection sub =
          subsectionHeader sub ++ contentBlock sub ++ codeBlock sub ++ decisionsBlock sub) ∧
    (∀ sub : Subsection, sub.decisions = none →
        renderSubsection sub =
          subsectionHeader sub ++ contentBlock sub ++ codeBlock sub ++ notesBlock sub) ∧
    (∀ sec : Section, sec.title = none →
        renderSection sec =
          (str "# " ++ sec.icon.getD [] ++ str " " ++ str "Unknown") ::
            (str "<!-- id: " ++ sec.id.getD [] ++ str " -->\n") ::
              sec.subsections.flatMap renderSubsection) ∧
    (∀ sec : Section, sec.id = none →
        renderSection sec =
          (str "# " ++ sec.icon.getD [] ++ str " " ++ sec.title.getD (str "Unknown")) ::
            (str "<!-- id:  -->\n") :: sec.subsections.flatMap renderSubsection) := by
  refine ⟨?_, ?_, ?_, ?_, ?_, ?_, ?_, ?_⟩
  · intro sub h
    rw [renderSubsection_blocks]
    have hh : subsectionHeader sub =
        [str "## Unknown", str "<!-- id: " ++ sub.id.getD [] ++ str " -->\n"] := by
      simp [subsectionHeader, h]
      decide
    rw [hh]
  · intro sub h
    rw [renderSubsection_blocks]
    have hh : subsectionHeader sub =
        [str "## " ++ sub.title.getD (str "Unknown"), str "<!-- id:  -->\n"] := by
      simp [subsectionHeader, h]
      decide
    rw [hh]
  · intro sub h
    rw [renderSubsection_blocks]
    have hc : contentBlock sub = [] := by simp [contentBlock, h]
    rw [hc]
    simp
  · intro sub h
    rw [renderSubsection_blocks]
    have hc : codeBlock sub = [] := by simp [codeBlock, h]
    rw [hc]
    simp
  · intro sub h
    rw [renderSubsection_blocks]
    have hc : notesBlock sub = [] := by simp [notesBlock, h]
    rw [hc]
    simp
  · intro sub h
    rw [renderSubsection_blocks]
    have hc : decisionsBlock sub = [] := by simp [decisionsBlock, h]
    rw [hc]
    simp
  · intro sec h
    simp [renderSection, h]
  · intro sec h
    simp [renderSection, h]
    decide

/-- A subsection closed without a `title:` marker but carrying every
other field. -/
def subNoTitle : Subsection :=
  { id := some (str "i"), content := some (str "c"), code := some (str "k"),
    notes := some [str "n"], decisions := some [str "d"] }

/-- A subsection with a title and prose but no id, code, notes or
decisions. -/
def subNoId : Subsection :=
  { title := some (str "T"), content := some (str "c") }

/-- A subsection with a title and code but no content. -/
def subNoContent : Subsection :=
  { title := some (str "T"), code := some (str "k") }

/-- A section with an icon and id but no title. -/
def secNoTitle : Section :=
  { id := some (str "s"), icon := some (str "I") }

/-- A section with a title but no id. -/
def secNoId : Section :=
  { title := some (str "S") }

/-- Witness for C10, instantiating every per-field default at a concrete
record that misses exactly the relevant field. -/
theorem claim10_missing_field_defaults_witness :
    (renderSubsection subNoTitle =
      [str "## Unknown", str "<!-- id: " ++ subNoTitle.id.getD [] ++ str " -->\n"] ++
        contentBlock subNoTitle ++ codeBlock subNoTitle ++ decisionsBlock subNoTitle ++
          notesBlock subNoTitle) ∧
    (renderSubsection subNoId =
      [str "## " ++ subNoId.title.getD (str "Unknown"), str "<!-- id:  -->\n"] ++
        contentBlock subNoId ++ codeBlock subNoId ++ decisionsBlock subNoId ++
          notesBlock subNoId) ∧
    (renderSubsection subNoContent =
      subsectionHeader subNoContent ++ codeBlock subNoContent ++ decisionsBlock subNoContent ++
        notesBlock subNoContent) ∧
    (renderSubsection subNoId =
      subsectionHeader subNoId ++ contentBlock subNoId ++ decisionsBlock subNoId ++
        notesBlock subNoId) ∧
    (renderSubsection subNoId =
      subsectionHeader subNoId ++ contentBlock subNoId ++ codeBlock subNoId ++
        decisionsBlock subNoId) ∧
    (renderSubsection subNoId =
      subsectionHeader subNoId ++ contentBlock subNoId ++ codeBlock subNoId ++
        notesBlock subNoId) ∧
    (renderSection secNoTitle =
      (str "# " ++ secNoTitle.icon.getD [] ++ str " " ++ str "Unknown") ::
        (str "<!-- id: " ++ secNoTitle.id.getD [] ++ str " -->\n") ::
          secNoTitle.subsections.flatMap renderSubsection) ∧
    (renderSection secNoId =
      (str "# " ++ secNoId.icon.getD [] ++ str " " ++ secNoId.title.getD (str "Unknown")) ::
        (str "<!-- id:  -->\n") :: secNoId.subsections.flatMap renderSubsection) :=
  ⟨claim10_missing_field_defaults.1 subNoTitle rfl,
   claim10_missing_field_defaults.2.1 subNoId rfl,
   claim10_missing_field_defaults.2.2.1 subNoContent rfl,
   claim10_missing_field_defaults.2.2.2.1 subNoId rfl,
   claim10_missing_field_defaults.2.2.2.2.1 subNoId rfl,
   claim10_missing_field_defaults.2.2.2.2.2.1 subNoId rfl,
   claim10_missing_field_defaults.2.2.2.2.2.2.1 secNoTitle rfl,
   claim10_missing_field_defaults.2.2.2.2.2.2.2 secNoId rfl⟩
